import Mathlib

/-!
# The D-Bus front end of the mu server (`mu/mu-cmd-dbus.cc`)

A shallow embedding of `construct_bus_name`, the `DBusContext` response
channel (`print_expr`, `print_expr_oob`, `print_error`, `print_sexps`,
`send_response`), the method-call entry point `on_maildirmanager_execute`
and the command `mu_cmd_dbus`.

Conventions of the embedding.

* C strings are `String`s; a nullable `const gchar *` is an `Option String`.
* A printf-style call is given by the text it formats: `"%s"` applied to one
  string argument is that string.
* Opaque pointers (`MuStore *`, `MuQuery *`, `MuServer *`,
  `GDBusMethodInvocation *`) are natural-number handles.
* Calls that leave the process (bus, run loop, transport) are recorded, in
  program order, as a list of `Action`s returned next to the new state.
* Functions, constants and macros that the file uses but does not define are
  the fields of `Externals`; every theorem quantifies over them.
-/

namespace Mu

/-- The C enumeration `MuError`, by numeric value (what `%u` prints). -/
abbrev MuError := Nat

/-- A thrown `Mu::Error`: its `code()` as a number and its `what()` text. -/
structure Error where
  code : Nat
  what : String
deriving DecidableEq, Repr

/-- A `GError` as filled in by `g_set_error`. -/
structure GError where
  domain : Nat
  code : Nat
  message : String
deriving DecidableEq, Repr

/-- A `MuMsg`: an opaque identity and whether `mu_msg_is_readable` holds. -/
structure MuMsg where
  id : Nat
  readable : Bool
deriving DecidableEq, Repr

/-- The position of a `MuMsgIter`: its message, docid and thread info. -/
structure MuMsgIterEntry where
  msg : MuMsg
  docid : Nat
  thread_info : Nat
deriving DecidableEq, Repr

/-- A `MuMsgIter` is the list of entries not yet passed; `mu_msg_iter_is_done`
is emptiness and `mu_msg_iter_next` drops the head. -/
abbrev MuMsgIter := List MuMsgIterEntry

/-- The `MuMsgOptions` values passed to `mu_msg_to_sexp`. -/
inductive MuMsgOptions where
  | MU_MSG_OPTION_NONE
  | MU_MSG_OPTION_HEADERS_ONLY
  | other (bits : Nat)
deriving DecidableEq, Repr

/-- Calls that leave the process, in the order the program makes them. -/
inductive Action where
  | mu_server_emit_oobmessage (server : Nat) (data : String)
  | mu_server_complete_execute (server : Nat) (invocation : Nat) (data : Option String)
  | invoke
  | g_main_loop_quit
  | g_bus_own_name (name : String)
  | g_main_loop_new
  | install_dbus_sig_handler
  | g_main_loop_run
  | g_main_loop_unref
  | g_bus_unown_name (id : Nat)
deriving DecidableEq, Repr

/-- The base `Context` of `mu-cmd-server.h` (its `command_map` is represented
by `Externals.invoke`). -/
structure Context where
  store : Nat
  query : Nat
  do_quit : Bool
deriving DecidableEq, Repr

/-- The `DBusContext` of `mu-cmd-dbus.cc`: the inherited `store`, `query`,
`do_quit`, then `invocation`, `response_server`, `response_buffer` (nullable)
and the reference `impl_` to the persistent context. -/
structure DBusContext where
  store : Nat
  query : Nat
  do_quit : Bool
  invocation : Nat
  response_server : Nat
  response_buffer : Option String
  impl_ : Context
deriving DecidableEq, Repr

/-- What a command handler does to the `Context&` it is bound to, through the
members `mu-cmd-server.h` declares: the four virtual `print_*` methods and the
public fields. `ret` is a normal return, `raise` a thrown `Mu::Error`;
`print_sexps` hands its return value to the rest of the handler. -/
inductive Prog where
  | ret
  | raise (e : Error)
  | print_expr (text : String) (k : Prog)
  | print_expr_oob (text : String) (k : Prog)
  | print_error (errcode : MuError) (msg : String) (k : Prog)
  | print_sexps (iter : MuMsgIter) (maxnum : Nat) (k : Nat → Prog)
  | set_do_quit (b : Bool) (k : Prog)
  | set_store (p : Nat) (k : Prog)
  | set_query (p : Nat) (k : Prog)

/-- The `MuConfig` fields read here. -/
structure MuConfig where
  dbus_suffix : Option String
deriving DecidableEq, Repr

/-- Everything `mu-cmd-dbus.cc` uses and does not define. -/
structure Externals where
  /-- The type `Mu::Sexp`. -/
  Sexp : Type
  /-- The function `Sexp::parse`: a value, or a thrown `Mu::Error`. -/
  parse : String → Except Error Sexp
  /-- The call `invoke (command_map, sexp)` with `command_map` made by
  `make_command_map` for the context the program then runs against. -/
  invoke : Sexp → Prog
  /-- The function `mu_str_escape_c_literal (str, in_quotes)`. -/
  mu_str_escape_c_literal : String → Bool → String
  /-- The function `mu_msg_to_sexp (msg, docid, thread_info, options)`. -/
  mu_msg_to_sexp : MuMsg → Nat → Nat → MuMsgOptions → String
  /-- The constructor `Context (MuConfig *)`, which may throw. -/
  new_context : MuConfig → Except Error Context
  /-- The id `g_bus_own_name` returns for a name. -/
  owner_id : String → Nat
  /-- The enumerator `Error::Code::InvalidArgument`. -/
  InvalidArgument : Nat
  /-- The enumerator `MU_OK`. -/
  MU_OK : MuError
  /-- The enumerator `MU_ERROR`. -/
  MU_ERROR : MuError
  /-- The quark `MU_ERROR_DOMAIN`. -/
  MU_ERROR_DOMAIN : Nat

/-! ## `construct_bus_name` -/

/-- The function `isalnum` of the C locale: the ASCII digits and letters; no
character outside ASCII is alphanumeric. -/
def isalnum (c : Char) : Bool :=
  (48 ≤ c.toNat && c.toNat ≤ 57) || (65 ≤ c.toNat && c.toNat ≤ 90) ||
    (97 ≤ c.toNat && c.toNat ≤ 122)

/-- The text thrown by `construct_bus_name`. -/
def bus_name_suffix_error (E : Externals) : Error :=
  { code := E.InvalidArgument, what := "non-alphanumeric character in bus name suffix" }

/-- The `for` loop of `construct_bus_name` over the characters of the suffix:
throws at the first one that is not alphanumeric. -/
def check_suffix (E : Externals) : List Char → Except Error Unit
  | [] => .ok ()
  | c :: cs => if !isalnum c then .error (bus_name_suffix_error E) else check_suffix E cs

/-- The constant `base` of `construct_bus_name`. -/
def base : String := "nl.djcbsoftware.Mu.Maildir"

/-- The function `construct_bus_name`. -/
def construct_bus_name (E : Externals) (suffix : Option String) : Except Error String :=
  match suffix with
  | some s =>
    match check_suffix E s.data with
    | .error e => .error e
    | .ok () => .ok (base ++ "." ++ s)
  | none => .ok base

/-! ## The response channel of `DBusContext` -/

/-- The constructor `DBusContext::DBusContext`. -/
def DBusContext.new (context : Context) (response_server_ invocation_ : Nat) : DBusContext :=
  { store := context.store
    query := context.query
    do_quit := false
    invocation := invocation_
    response_server := response_server_
    response_buffer := some ""
    impl_ := context }

/-- The function `g_string_append_printf` on a nullable `GString *`: a null
string is left alone. -/
def g_string_append (buffer : Option String) (text : String) : Option String :=
  match buffer with
  | some b => some (b ++ text)
  | none => none

/-- The method `DBusContext::print_expr`, on the formatted text. -/
def DBusContext.print_expr (ctx : DBusContext) (text : String) : DBusContext × List Action :=
  ({ ctx with response_buffer := g_string_append ctx.response_buffer text }, [])

/-- The method `DBusContext::print_expr_oob`, on the formatted text. -/
def DBusContext.print_expr_oob (ctx : DBusContext) (text : String) : DBusContext × List Action :=
  let oob_buffer := "" ++ text
  (ctx, [Action.mu_server_emit_oobmessage ctx.response_server oob_buffer])

/-- The text `print_error` appends: the format `"(:error %u :message %s)"`
applied to the code and the escaped message. -/
def error_fragment (E : Externals) (errcode : MuError) (msg : String) : String :=
  "(:error " ++ Nat.repr errcode ++ " :message " ++ E.mu_str_escape_c_literal msg true ++ ")"

/-- The method `DBusContext::print_error`, on the formatted message: the new
context, the calls made and the returned code. -/
def DBusContext.print_error (E : Externals) (ctx : DBusContext) (errcode : MuError)
    (msg : String) : DBusContext × List Action × MuError :=
  ({ ctx with response_buffer := g_string_append ctx.response_buffer (error_fragment E errcode msg) },
    [], errcode)

/-- The `while` loop of `DBusContext::print_sexps` from the state `(iter, u)`:
the context, the calls made, the iterator and the counter when it stops. -/
def print_sexps_loop (E : Externals) (maxnum : Nat) :
    MuMsgIter → DBusContext → Nat → DBusContext × List Action × MuMsgIter × Nat
  | [], ctx, u => (ctx, [], [], u)
  | entry :: rest, ctx, u =>
    if u < maxnum then
      if entry.msg.readable then
        let sexp := E.mu_msg_to_sexp entry.msg entry.docid entry.thread_info
          MuMsgOptions.MU_MSG_OPTION_HEADERS_ONLY
        let r := ctx.print_expr sexp
        let r2 := print_sexps_loop E maxnum rest r.1 (u + 1)
        (r2.1, r.2 ++ r2.2.1, r2.2.2)
      else
        print_sexps_loop E maxnum rest ctx u
    else
      (ctx, [], entry :: rest, u)

/-- The method `DBusContext::print_sexps`. -/
def DBusContext.print_sexps (E : Externals) (ctx : DBusContext) (iter : MuMsgIter)
    (maxnum : Nat) : DBusContext × List Action × MuMsgIter × Nat :=
  print_sexps_loop E maxnum iter ctx 0

/-- The method `DBusContext::send_response`: the buffer is detached and its
text completes the call. -/
def DBusContext.send_response (ctx : DBusContext) : DBusContext × List Action :=
  let char_data := ctx.response_buffer
  ({ ctx with response_buffer := none },
    [Action.mu_server_complete_execute ctx.response_server ctx.invocation char_data])

/-! ## Dispatch: `on_maildirmanager_execute` -/

/-- A handler program run against a `DBusContext`: the context when it stops,
the calls made, and the `Mu::Error` in flight if it stopped by throwing. -/
def Prog.run (E : Externals) : Prog → DBusContext → DBusContext × List Action × Option Error
  | .ret, ctx => (ctx, [], none)
  | .raise e, ctx => (ctx, [], some e)
  | .print_expr text k, ctx =>
    let r := ctx.print_expr text
    let r2 := k.run E r.1
    (r2.1, r.2 ++ r2.2.1, r2.2.2)
  | .print_expr_oob text k, ctx =>
    let r := ctx.print_expr_oob text
    let r2 := k.run E r.1
    (r2.1, r.2 ++ r2.2.1, r2.2.2)
  | .print_error errcode msg k, ctx =>
    let r := ctx.print_error E errcode msg
    let r2 := k.run E r.1
    (r2.1, r.2.1 ++ r2.2.1, r2.2.2)
  | .print_sexps iter maxnum k, ctx =>
    let r := ctx.print_sexps E iter maxnum
    let r2 := (k r.2.2.2).run E r.1
    (r2.1, r.2.1 ++ r2.2.1, r2.2.2)
  | .set_do_quit b k, ctx => k.run E { ctx with do_quit := b }
  | .set_store p k, ctx => k.run E { ctx with store := p }
  | .set_query p k, ctx => k.run E { ctx with query := p }

/-- The `try` block of `on_maildirmanager_execute`: `Sexp::parse` is evaluated
first, and `invoke` is entered only with its value. -/
def execute_try (E : Externals) (ctx : DBusContext) (payload : String) :
    DBusContext × List Action × Option Error :=
  let line := payload
  match E.parse line with
  | .error er => (ctx, [], some er)
  | .ok sexp =>
    let r := (E.invoke sexp).run E ctx
    (r.1, Action.invoke :: r.2.1, r.2.2)

/-- The `try` block followed by its `catch (const Error& er)` clause. -/
def execute_try_catch (E : Externals) (ctx : DBusContext) (payload : String) :
    DBusContext × List Action :=
  let r := execute_try E ctx payload
  match r.2.2 with
  | none => (r.1, r.2.1)
  | some er =>
    let p := r.1.print_error E er.code er.what
    (p.1, r.2.1 ++ p.2.1)

/-- What `on_maildirmanager_execute` leaves behind: the returned `gboolean`,
the calls made, the `dbus_context` at the `return` and the persistent context
it refers to. -/
structure ExecuteResult where
  handled : Bool
  trace : List Action
  dbus_context : DBusContext
  context : Context
deriving DecidableEq, Repr

/-- The signal handler `on_maildirmanager_execute`; `user_data` is the
persistent `Context`. -/
def on_maildirmanager_execute (E : Externals) (md_mgr invocation : Nat) (payload : String)
    (user_data : Context) : ExecuteResult :=
  let dbus_context := DBusContext.new user_data md_mgr invocation
  let r := execute_try_catch E dbus_context payload
  let s := r.1.send_response
  let quit := if s.1.do_quit then [Action.g_main_loop_quit] else []
  { handled := true
    trace := r.2 ++ s.2 ++ quit
    dbus_context := s.1
    context := s.1.impl_ }

/-! ## Startup: `mu_cmd_dbus` -/

/-- What `mu_cmd_dbus` leaves behind: the returned `MuError`, what
`g_set_error` stored through `err`, and the calls made. -/
structure CmdResult where
  ret : MuError
  err : Option GError
  trace : List Action
deriving DecidableEq, Repr

/-- The function body of `mu_cmd_dbus` (its `try` block), for a run whose loop
is quit: both throwing calls come before the first bus call. -/
def mu_cmd_dbus_try (E : Externals) (opts : MuConfig) : Except Error (MuError × List Action) :=
  match construct_bus_name E opts.dbus_suffix with
  | .error er => .error er
  | .ok bus_name =>
    match E.new_context opts with
    | .error er => .error er
    | .ok _ =>
      let id := E.owner_id bus_name
      .ok (E.MU_OK,
        [Action.g_bus_own_name bus_name, Action.g_main_loop_new, Action.install_dbus_sig_handler,
         Action.g_main_loop_run, Action.g_main_loop_unref, Action.g_bus_unown_name id])

/-- The function `mu_cmd_dbus` with its function-level `catch`. -/
def mu_cmd_dbus (E : Externals) (opts : MuConfig) : CmdResult :=
  match mu_cmd_dbus_try E opts with
  | .ok r => { ret := r.1, err := none, trace := r.2 }
  | .error er =>
    { ret := E.MU_ERROR
      err := some { domain := E.MU_ERROR_DOMAIN, code := E.MU_ERROR, message := er.what }
      trace := [] }

/-! ## A concrete instance of the externals -/

/-- A small stand-in for the externals, used to evaluate the definitions:
empty text does not parse, `"(quit)"` sets the flag, `"(find)"` stages one
fragment and then throws, anything else is an unknown command. -/
def sample : Externals where
  Sexp := String
  parse := fun s => if s = "" then .error { code := 3, what := "parse error" } else .ok s
  invoke := fun s =>
    if s = "(quit)" then Prog.set_do_quit true (Prog.print_expr "()" Prog.ret)
    else if s = "(find)" then Prog.print_expr "(:docid 1)" (Prog.raise { code := 4, what := "no matches" })
    else Prog.raise { code := 2, what := "unknown command" }
  mu_str_escape_c_literal := fun s q => if q then "\"" ++ s ++ "\"" else s
  mu_msg_to_sexp := fun m docid _ _ => "(:docid " ++ Nat.repr docid ++ " :msg " ++ Nat.repr m.id ++ ")"
  new_context := fun _ => .ok { store := 1, query := 2, do_quit := false }
  owner_id := fun _ => 7
  InvalidArgument := 5
  MU_OK := 0
  MU_ERROR := 1
  MU_ERROR_DOMAIN := 9

/-! ## Vocabulary of the statements -/

/-- The headers-only serialisation `print_sexps` prints for an entry. -/
def headers_only_sexp (E : Externals) (entry : MuMsgIterEntry) : String :=
  E.mu_msg_to_sexp entry.msg entry.docid entry.thread_info MuMsgOptions.MU_MSG_OPTION_HEADERS_ONLY

/-- The readable entries of an iterator, in iterator order. -/
def readable_entries (iter : MuMsgIter) : List MuMsgIterEntry :=
  iter.filter (fun entry => entry.msg.readable)

/-- The text `b` after the fragments have been appended one after the other. -/
def append_all (b : String) (fragments : List String) : String :=
  fragments.foldl (fun acc fragment => acc ++ fragment) b

/-- Whether an action is a `mu_server_complete_execute`. -/
def Action.is_complete_execute : Action → Bool
  | .mu_server_complete_execute _ _ _ => true
  | _ => false

/-- Whether an action is a `mu_server_emit_oobmessage`. -/
def Action.is_emit_oobmessage : Action → Bool
  | .mu_server_emit_oobmessage _ _ => true
  | _ => false

/-- The second context is the first one up to the fields a handler can reach:
same `impl_`, `invocation` and `response_server`, and a live buffer stays live. -/
def DBusContext.Frame (c c2 : DBusContext) : Prop :=
  c2.impl_ = c.impl_ ∧ c2.invocation = c.invocation ∧
    c2.response_server = c.response_server ∧
    (c.response_buffer.isSome = true → c2.response_buffer.isSome = true)

/-! ## Bus-name construction -/

/-- The suffix loop succeeds exactly when every character is alphanumeric. -/
theorem check_suffix_ok_iff (E : Externals) (cs : List Char) :
    check_suffix E cs = .ok () ↔ ∀ c ∈ cs, isalnum c = true := by
  induction cs with
  | nil => simp [check_suffix]
  | cons c cs ih =>
    cases hc : isalnum c <;> simp [check_suffix, hc, ih]

/-- The suffix loop can only fail with the `InvalidArgument` error. -/
theorem check_suffix_error (E : Externals) (cs : List Char) (e : Error)
    (h : check_suffix E cs = .error e) : e = bus_name_suffix_error E := by
  induction cs with
  | nil => simp [check_suffix] at h
  | cons c cs ih =>
    cases hc : isalnum c
    · simp [check_suffix, hc] at h
      exact h.symm
    · simp [check_suffix, hc] at h
      exact ih h

/-- The suffix loop either succeeds or fails with the `InvalidArgument` error. -/
theorem check_suffix_cases (E : Externals) (cs : List Char) :
    check_suffix E cs = .ok () ∨ check_suffix E cs = .error (bus_name_suffix_error E) := by
  cases h : check_suffix E cs with
  | ok u => exact Or.inl rfl
  | error e => exact Or.inr (by rw [check_suffix_error E cs e h])

/-- Every name `construct_bus_name` returns is the base identifier, or the base
identifier, a `.` and a suffix whose characters are all alphanumeric; the
suffix may be empty. -/
theorem construct_bus_name_returns (E : Externals) (suffix : Option String) (name : String)
    (h : construct_bus_name E suffix = .ok name) :
    name = "nl.djcbsoftware.Mu.Maildir" ∨
      ∃ s, name = "nl.djcbsoftware.Mu.Maildir" ++ "." ++ s ∧ ∀ c ∈ s.data, isalnum c = true := by
  cases suffix with
  | none =>
    left
    simp [construct_bus_name, base] at h
    exact h.symm
  | some s =>
    right
    rcases check_suffix_cases E s.data with hc | hc
    · simp [construct_bus_name, hc, base] at h
      exact ⟨s, h.symm, (check_suffix_ok_iff E s.data).1 hc⟩
    · simp [construct_bus_name, hc] at h

/-- C1: at the supplied, empty suffix `""` the code does not raise and returns
`"nl.djcbsoftware.Mu.Maildir."`, the base identifier followed by a bare `.`. -/
theorem construct_bus_name_empty_suffix (E : Externals) :
    construct_bus_name E (some "") = .ok "nl.djcbsoftware.Mu.Maildir." := by
  rfl

/-- C2: `construct_bus_name` raises if and only if a suffix is supplied and one
of its characters is not alphanumeric; an error it raises is the
`InvalidArgument` one; and when it does not raise it returns the base
identifier for an absent suffix and `base ++ "." ++ suffix` for a supplied one. -/
theorem construct_bus_name_raises_iff (E : Externals) (suffix : Option String) :
    ((∃ e, construct_bus_name E suffix = .error e) ↔
        ∃ s, suffix = some s ∧ ∃ c ∈ s.data, isalnum c = false) ∧
      (∀ e, construct_bus_name E suffix = .error e →
        e = { code := E.InvalidArgument,
              what := "non-alphanumeric character in bus name suffix" }) ∧
      ((¬ ∃ e, construct_bus_name E suffix = .error e) →
        construct_bus_name E suffix =
          .ok (match suffix with
               | none => "nl.djcbsoftware.Mu.Maildir"
               | some s => "nl.djcbsoftware.Mu.Maildir" ++ "." ++ s)) := by
  cases suffix with
  | none => simp [construct_bus_name, base]
  | some s =>
    rcases check_suffix_cases E s.data with h | h
    · have hall := (check_suffix_ok_iff E s.data).1 h
      refine ⟨?_, ?_, ?_⟩
      · constructor
        · rintro ⟨e, he⟩
          simp [construct_bus_name, h] at he
        · rintro ⟨t, ht, c, hc, hbad⟩
          cases ht
          rw [hall c hc] at hbad
          cases hbad
      · intro e he
        simp [construct_bus_name, h] at he
      · intro _
        simp [construct_bus_name, h, base]
    · have hnot : ¬ ∀ c ∈ s.data, isalnum c = true := by
        intro hall
        rw [(check_suffix_ok_iff E s.data).2 hall] at h
        cases h
      refine ⟨?_, ?_, ?_⟩
      · constructor
        · intro _
          refine ⟨s, rfl, ?_⟩
          by_contra hno
          apply hnot
          intro c hc
          cases hv : isalnum c
          · exact absurd ⟨c, hc, hv⟩ hno
          · rfl
        · intro _
          exact ⟨bus_name_suffix_error E, by simp [construct_bus_name, h]⟩
      · intro e he
        simp [construct_bus_name, h] at he
        rw [← he]
        rfl
      · intro hno
        exact absurd ⟨bus_name_suffix_error E, by simp [construct_bus_name, h]⟩ hno

/-- C2 at the suffix `"a-b"`: it raises, and the error is the `InvalidArgument` one. -/
theorem construct_bus_name_raises_iff_witness :
    (∃ e, construct_bus_name sample (some "a-b") = .error e) ∧
      construct_bus_name sample (some "a-b") =
        .error { code := sample.InvalidArgument,
                 what := "non-alphanumeric character in bus name suffix" } := by
  have h := construct_bus_name_raises_iff sample (some "a-b")
  have hex : ∃ e, construct_bus_name sample (some "a-b") = .error e :=
    h.1.2 ⟨"a-b", rfl, '-', by decide, by decide⟩
  refine ⟨hex, ?_⟩
  obtain ⟨e, he⟩ := hex
  rw [he, h.2.1 e he]

/-! ## Startup -/

/-- C3: when `dbus_suffix` holds a non-alphanumeric character, `mu_cmd_dbus`
returns `MU_ERROR`, stores the error's message through `err`, and makes no
call at all: no `g_bus_own_name`, no run-loop creation or run, no
`g_bus_unown_name`. -/
theorem mu_cmd_dbus_bad_suffix (E : Externals) (opts : MuConfig) (s : String)
    (hs : opts.dbus_suffix = some s) (hbad : ∃ c ∈ s.data, isalnum c = false) :
    (mu_cmd_dbus E opts).ret = E.MU_ERROR ∧
      (mu_cmd_dbus E opts).err =
        some { domain := E.MU_ERROR_DOMAIN, code := E.MU_ERROR,
               message := "non-alphanumeric character in bus name suffix" } ∧
      (mu_cmd_dbus E opts).trace = [] ∧
      (∀ name, Action.g_bus_own_name name ∉ (mu_cmd_dbus E opts).trace) ∧
      Action.g_main_loop_new ∉ (mu_cmd_dbus E opts).trace ∧
      Action.g_main_loop_run ∉ (mu_cmd_dbus E opts).trace ∧
      (∀ id, Action.g_bus_unown_name id ∉ (mu_cmd_dbus E opts).trace) := by
  have hloop : check_suffix E s.data = .error (bus_name_suffix_error E) := by
    rcases check_suffix_cases E s.data with h | h
    · obtain ⟨c, hc, hv⟩ := hbad
      rw [(check_suffix_ok_iff E s.data).1 h c hc] at hv
      cases hv
    · exact h
  simp [mu_cmd_dbus, mu_cmd_dbus_try, construct_bus_name, hs, hloop, bus_name_suffix_error]

/-- C3 at the suffix `"a-b"`. -/
theorem mu_cmd_dbus_bad_suffix_witness :
    (mu_cmd_dbus sample { dbus_suffix := some "a-b" }).ret = sample.MU_ERROR ∧
      (mu_cmd_dbus sample { dbus_suffix := some "a-b" }).trace = [] :=
  have h := mu_cmd_dbus_bad_suffix sample { dbus_suffix := some "a-b" } "a-b" rfl
    ⟨'-', by decide, by decide⟩
  ⟨h.1, h.2.2.1⟩

/-! ## The response channel -/

/-- C6, as the claim words it, fails: for code 4 and message `no matches` the
appended fragment is not `(error 4 message "no matches")`. -/
theorem print_error_shape_counterexample :
    (DBusContext.print_error sample
        (DBusContext.new { store := 1, query := 2, do_quit := false } 1 2) 4 "no matches").1.response_buffer
      ≠ some ("(error " ++ Nat.repr 4 ++ " message " ++
          sample.mu_str_escape_c_literal "no matches" true ++ ")") := by
  decide

/-- C6, amended: `print_error` appends `(:error ` then the code in decimal,
then ` :message `, the escaped quoted literal of the message and `)`, touches
nothing else, makes no call, and returns the code. -/
theorem print_error_shape (E : Externals) (ctx : DBusContext) (b : String) (c : MuError)
    (m : String) :
    DBusContext.print_error E { ctx with response_buffer := some b } c m =
      ({ ctx with
          response_buffer := some (b ++ ("(:error " ++ Nat.repr c ++ " :message " ++
                                     E.mu_str_escape_c_literal m true ++ ")")) },
        [], c) := by
  rfl

/-- C9: `print_expr_oob` returns the context as it was (buffer, store, query
and `do_quit` included) and makes exactly one call, the out-of-band
notification carrying the text; `print_expr` makes no call and turns the
buffer `b` into `b ++ t`, leaving the other fields alone. -/
theorem print_expr_oob_frame (ctx : DBusContext) (b t : String) :
    DBusContext.print_expr_oob ctx t =
        (ctx, [Action.mu_server_emit_oobmessage ctx.response_server t]) ∧
      DBusContext.print_expr { ctx with response_buffer := some b } t =
        ({ ctx with response_buffer := some (b ++ t) }, []) := by
  refine ⟨?_, rfl⟩
  simp [DBusContext.print_expr_oob]

/-- The loop of `print_sexps` from counter `u ≤ maxnum`: it passes a prefix
`visited` of the iterator, appends the serialisations of the readable entries
of that prefix, which are the first `maxnum - u` readable entries, and stops
at the end of the iterator or with the counter at `maxnum`. -/
theorem print_sexps_loop_spec (E : Externals) (maxnum : Nat) :
    ∀ (iter : MuMsgIter) (ctx : DBusContext) (b : String) (u : Nat), u ≤ maxnum →
      ∃ visited rest, iter = visited ++ rest ∧
        print_sexps_loop E maxnum iter { ctx with response_buffer := some b } u =
          ({ ctx with
              response_buffer :=
                some (append_all b ((readable_entries visited).map (headers_only_sexp E))) },
            [], rest, u + (readable_entries visited).length) ∧
        readable_entries visited = (readable_entries iter).take (maxnum - u) ∧
        (rest = [] ∨ u + (readable_entries visited).length = maxnum) := by
  intro iter
  induction iter with
  | nil =>
    intro ctx b u _
    exact ⟨[], [], rfl, by simp [print_sexps_loop, readable_entries, append_all],
      by simp [readable_entries], Or.inl rfl⟩
  | cons e tl ih =>
    intro ctx b u hu
    by_cases hlt : u < maxnum
    · cases hr : e.msg.readable
      · obtain ⟨v, r, hsplit, hrun, htake, hend⟩ := ih ctx b u hu
        refine ⟨e :: v, r, by simp [hsplit], ?_, ?_, ?_⟩
        · simp only [print_sexps_loop, hlt, hr, if_true, hrun]
          simp [readable_entries, hr]
        · simpa [readable_entries, hr] using htake
        · simpa [readable_entries, hr] using hend
      · obtain ⟨v, r, hsplit, hrun, htake, hend⟩ :=
          ih ctx (b ++ headers_only_sexp E e) (u + 1) hlt
        have hm : maxnum - u = (maxnum - (u + 1)) + 1 := by omega
        refine ⟨e :: v, r, by simp [hsplit], ?_, ?_, ?_⟩
        · have hstep : (DBusContext.print_expr { ctx with response_buffer := some b }
              (headers_only_sexp E e)).1 =
              { ctx with response_buffer := some (b ++ headers_only_sexp E e) } := rfl
          have hcall : (DBusContext.print_expr { ctx with response_buffer := some b }
              (headers_only_sexp E e)).2 = [] := rfl
          have hunf : print_sexps_loop E maxnum (e :: tl) { ctx with response_buffer := some b } u =
              ((print_sexps_loop E maxnum tl (DBusContext.print_expr
                  { ctx with response_buffer := some b } (headers_only_sexp E e)).1 (u + 1)).1,
                (DBusContext.print_expr { ctx with response_buffer := some b }
                  (headers_only_sexp E e)).2 ++
                  (print_sexps_loop E maxnum tl (DBusContext.print_expr
                    { ctx with response_buffer := some b } (headers_only_sexp E e)).1 (u + 1)).2.1,
                (print_sexps_loop E maxnum tl (DBusContext.print_expr
                  { ctx with response_buffer := some b } (headers_only_sexp E e)).1 (u + 1)).2.2) := by
            simp [print_sexps_loop, hlt, hr, headers_only_sexp]
          rw [hunf, hstep, hcall, hrun]
          simp [readable_entries, hr, append_all, Nat.add_assoc, Nat.add_comm 1]
        · rw [hm]
          simp only [readable_entries, List.filter_cons, hr, if_true, List.take_succ_cons]
          simpa [readable_entries] using htake
        · rcases hend with hend | hend
          · exact Or.inl hend
          · right
            simp only [readable_entries, List.filter_cons, hr, if_true, List.length_cons]
            simp only [readable_entries] at hend
            omega
    · have hu2 : u = maxnum := by omega
      refine ⟨[], e :: tl, rfl, ?_, ?_, Or.inr ?_⟩
      · simp [print_sexps_loop, hlt, readable_entries, append_all]
      · simp [readable_entries, hu2]
      · simp [readable_entries, hu2]

/-- C4: on a live buffer `b`, `print_sexps` passes a prefix `visited` of the
iterator and leaves the iterator at the remainder `rest`; it appends to `b`,
in iterator order, the headers-only serialisations of the first
`min maxnum r` readable entries (`r` the number of readable entries), which
are exactly the readable entries among the visited ones, so unreadable
entries add nothing and are not counted; it makes no external call, changes no
other field, returns `min maxnum r`, and on return the iterator is done or
`maxnum` fragments were appended. With three readable entries and one
unreadable entry and `maxnum = 10` it appends the three serialisations in
order and returns 3. -/
theorem print_sexps_spec (E : Externals) (ctx : DBusContext) (b : String) (iter : MuMsgIter)
    (maxnum : Nat) :
    (∃ visited rest, iter = visited ++ rest ∧
        DBusContext.print_sexps E { ctx with response_buffer := some b } iter maxnum =
          ({ ctx with
              response_buffer :=
                some (append_all b
                  (((readable_entries iter).take maxnum).map (headers_only_sexp E))) },
            [], rest, min maxnum (readable_entries iter).length) ∧
        readable_entries visited = (readable_entries iter).take maxnum ∧
        ((readable_entries iter).take maxnum).length = min maxnum (readable_entries iter).length ∧
        (rest = [] ∨ min maxnum (readable_entries iter).length = maxnum)) ∧
      DBusContext.print_sexps E { ctx with response_buffer := some b }
          [{ msg := { id := 1, readable := true }, docid := 11, thread_info := 0 },
           { msg := { id := 2, readable := false }, docid := 12, thread_info := 0 },
           { msg := { id := 3, readable := true }, docid := 13, thread_info := 0 },
           { msg := { id := 4, readable := true }, docid := 14, thread_info := 0 }] 10 =
        ({ ctx with
            response_buffer :=
              some (b ++ E.mu_msg_to_sexp { id := 1, readable := true } 11 0
                      MuMsgOptions.MU_MSG_OPTION_HEADERS_ONLY
                    ++ E.mu_msg_to_sexp { id := 3, readable := true } 13 0
                      MuMsgOptions.MU_MSG_OPTION_HEADERS_ONLY
                    ++ E.mu_msg_to_sexp { id := 4, readable := true } 14 0
                      MuMsgOptions.MU_MSG_OPTION_HEADERS_ONLY) },
          [], [], 3) := by
  refine ⟨?_, ?_⟩
  · obtain ⟨v, r, hsplit, hrun, htake, hend⟩ :=
      print_sexps_loop_spec E maxnum iter ctx b 0 (Nat.zero_le _)
    have hlen : (readable_entries v).length = min maxnum (readable_entries iter).length := by
      rw [htake]
      simp
    simp only [Nat.sub_zero] at htake
    refine ⟨v, r, hsplit, ?_, htake, by simp, ?_⟩
    · unfold DBusContext.print_sexps
      rw [hrun, htake]
      simp
    · rcases hend with hend | hend
      · exact Or.inl hend
      · right
        rw [← hlen]
        simpa using hend
  · rfl

/-! ## Dispatch -/

/-- `Frame` is reflexive. -/
theorem DBusContext.Frame.refl (c : DBusContext) : DBusContext.Frame c c :=
  ⟨rfl, rfl, rfl, fun h => h⟩

/-- `Frame` is transitive. -/
theorem DBusContext.Frame.trans {c1 c2 c3 : DBusContext} (h12 : DBusContext.Frame c1 c2)
    (h23 : DBusContext.Frame c2 c3) : DBusContext.Frame c1 c3 :=
  ⟨h23.1.trans h12.1, h23.2.1.trans h12.2.1, h23.2.2.1.trans h12.2.2.1,
    fun h => h23.2.2.2 (h12.2.2.2 h)⟩

/-- Appending to a live buffer leaves it live. -/
theorem g_string_append_isSome (buffer : Option String) (text : String)
    (h : buffer.isSome = true) : (g_string_append buffer text).isSome = true := by
  cases buffer with
  | none => cases h
  | some b => rfl

/-- The loop of `print_sexps` makes no external call and stays in the frame. -/
theorem print_sexps_loop_frame (E : Externals) (maxnum : Nat) :
    ∀ (iter : MuMsgIter) (ctx : DBusContext) (u : Nat),
      (print_sexps_loop E maxnum iter ctx u).2.1 = [] ∧
        DBusContext.Frame ctx (print_sexps_loop E maxnum iter ctx u).1 := by
  intro iter
  induction iter with
  | nil =>
    intro ctx u
    exact ⟨rfl, DBusContext.Frame.refl ctx⟩
  | cons e tl ih =>
    intro ctx u
    by_cases hlt : u < maxnum
    · cases hr : e.msg.readable
      · simpa [print_sexps_loop, hlt, hr] using ih ctx u
      · have h := ih (ctx.print_expr (headers_only_sexp E e)).1 (u + 1)
        have hstep : DBusContext.Frame ctx (ctx.print_expr (headers_only_sexp E e)).1 :=
          ⟨rfl, rfl, rfl, g_string_append_isSome _ _⟩
        refine ⟨?_, ?_⟩
        · simpa [print_sexps_loop, hlt, hr, headers_only_sexp, DBusContext.print_expr] using h.1
        · simpa [print_sexps_loop, hlt, hr, headers_only_sexp] using hstep.trans h.2
    · simp [print_sexps_loop, hlt, DBusContext.Frame.refl]

/-- A handler run stays in the frame and its only external calls are
out-of-band notifications. -/
theorem Prog.run_frame (E : Externals) :
    ∀ (p : Prog) (ctx : DBusContext),
      DBusContext.Frame ctx (p.run E ctx).1 ∧
        ∀ a ∈ (p.run E ctx).2.1, a.is_emit_oobmessage = true := by
  intro p
  induction p with
  | ret => intro ctx; exact ⟨DBusContext.Frame.refl ctx, by simp [Prog.run]⟩
  | raise e => intro ctx; exact ⟨DBusContext.Frame.refl ctx, by simp [Prog.run]⟩
  | print_expr text k ih =>
    intro ctx
    have h := ih (ctx.print_expr text).1
    have hstep : DBusContext.Frame ctx (ctx.print_expr text).1 :=
      ⟨rfl, rfl, rfl, g_string_append_isSome _ _⟩
    exact ⟨by simpa [Prog.run] using hstep.trans h.1,
      by simpa [Prog.run, DBusContext.print_expr] using h.2⟩
  | print_expr_oob text k ih =>
    intro ctx
    have h := ih ctx
    refine ⟨by simpa [Prog.run, DBusContext.print_expr_oob] using h.1, ?_⟩
    intro a ha
    simp only [Prog.run, DBusContext.print_expr_oob, List.mem_append, List.mem_singleton] at ha
    rcases ha with ha | ha
    · subst ha
      rfl
    · exact h.2 a ha
  | print_error errcode msg k ih =>
    intro ctx
    have h := ih (ctx.print_error E errcode msg).1
    have hstep : DBusContext.Frame ctx (ctx.print_error E errcode msg).1 :=
      ⟨rfl, rfl, rfl, g_string_append_isSome _ _⟩
    exact ⟨by simpa [Prog.run] using hstep.trans h.1,
      by simpa [Prog.run, DBusContext.print_error] using h.2⟩
  | print_sexps iter maxnum k ih =>
    intro ctx
    have hl := print_sexps_loop_frame E maxnum iter ctx 0
    have h := ih (ctx.print_sexps E iter maxnum).2.2.2 (ctx.print_sexps E iter maxnum).1
    refine ⟨by simpa [Prog.run] using DBusContext.Frame.trans hl.2 h.1, ?_⟩
    intro a ha
    simp only [Prog.run, List.mem_append] at ha
    rcases ha with ha | ha
    · have hnil : (ctx.print_sexps E iter maxnum).2.1 = [] := hl.1
      rw [hnil] at ha
      cases ha
    · exact h.2 a ha
  | set_do_quit b k ih =>
    intro ctx
    have h := ih { ctx with do_quit := b }
    exact ⟨by simpa [Prog.run, DBusContext.Frame] using h.1, by simpa [Prog.run] using h.2⟩
  | set_store p k ih =>
    intro ctx
    have h := ih { ctx with store := p }
    exact ⟨by simpa [Prog.run, DBusContext.Frame] using h.1, by simpa [Prog.run] using h.2⟩
  | set_query p k ih =>
    intro ctx
    have h := ih { ctx with query := p }
    exact ⟨by simpa [Prog.run, DBusContext.Frame] using h.1, by simpa [Prog.run] using h.2⟩

/-- The `try` block when `Sexp::parse` throws. -/
theorem execute_try_parse_error (E : Externals) (ctx : DBusContext) (payload : String)
    (er : Error) (h : E.parse payload = .error er) :
    execute_try E ctx payload = (ctx, [], some er) := by
  simp [execute_try, h]

/-- The `try` block when `Sexp::parse` returns. -/
theorem execute_try_parse_ok (E : Externals) (ctx : DBusContext) (payload : String)
    (sexp : E.Sexp) (h : E.parse payload = .ok sexp) :
    execute_try E ctx payload =
      (((E.invoke sexp).run E ctx).1, Action.invoke :: ((E.invoke sexp).run E ctx).2.1,
        ((E.invoke sexp).run E ctx).2.2) := by
  simp [execute_try, h]

/-- The `catch` clause is skipped when nothing was thrown. -/
theorem execute_try_catch_none (E : Externals) (ctx : DBusContext) (payload : String)
    (h : (execute_try E ctx payload).2.2 = none) :
    execute_try_catch E ctx payload =
      ((execute_try E ctx payload).1, (execute_try E ctx payload).2.1) := by
  simp [execute_try_catch, h]

/-- The `catch` clause calls `print_error` with the code and text thrown. -/
theorem execute_try_catch_some (E : Externals) (ctx : DBusContext) (payload : String)
    (er : Error) (h : (execute_try E ctx payload).2.2 = some er) :
    execute_try_catch E ctx payload =
      (((execute_try E ctx payload).1.print_error E er.code er.what).1,
        (execute_try E ctx payload).2.1) := by
  simp [execute_try_catch, h, DBusContext.print_error]

/-- The `try` block stays in the frame; its calls are the `invoke` marker and
out-of-band notifications. -/
theorem execute_try_frame (E : Externals) (ctx : DBusContext) (payload : String) :
    DBusContext.Frame ctx (execute_try E ctx payload).1 ∧
      ∀ a ∈ (execute_try E ctx payload).2.1,
        a = Action.invoke ∨ a.is_emit_oobmessage = true := by
  cases hp : E.parse payload with
  | error er =>
    rw [execute_try_parse_error E ctx payload er hp]
    exact ⟨DBusContext.Frame.refl ctx, by simp⟩
  | ok sexp =>
    rw [execute_try_parse_ok E ctx payload sexp hp]
    have h := Prog.run_frame E (E.invoke sexp) ctx
    refine ⟨h.1, ?_⟩
    intro a ha
    simp only [List.mem_cons] at ha
    rcases ha with ha | ha
    · exact Or.inl ha
    · exact Or.inr (h.2 a ha)

/-- The `try` block with its `catch` stays in the frame; its calls are the
`invoke` marker and out-of-band notifications. -/
theorem execute_try_catch_frame (E : Externals) (ctx : DBusContext) (payload : String) :
    DBusContext.Frame ctx (execute_try_catch E ctx payload).1 ∧
      ∀ a ∈ (execute_try_catch E ctx payload).2,
        a = Action.invoke ∨ a.is_emit_oobmessage = true := by
  have h := execute_try_frame E ctx payload
  cases hr : (execute_try E ctx payload).2.2 with
  | none =>
    rw [execute_try_catch_none E ctx payload hr]
    exact ⟨h.1, h.2⟩
  | some er =>
    rw [execute_try_catch_some E ctx payload er hr]
    have hstep : DBusContext.Frame (execute_try E ctx payload).1
        ((execute_try E ctx payload).1.print_error E er.code er.what).1 :=
      ⟨rfl, rfl, rfl, g_string_append_isSome _ _⟩
    exact ⟨h.1.trans hstep, h.2⟩

/-- The handler unfolded: the trace is the calls of the `try`/`catch`, then the
one completion with the text of the buffer, then the quit request if the flag
is set; the persistent context is the one passed in. -/
theorem on_maildirmanager_execute_unfold (E : Externals) (md_mgr invocation : Nat)
    (payload : String) (user_data : Context) :
    ∃ text,
      (execute_try_catch E (DBusContext.new user_data md_mgr invocation) payload).1.response_buffer
          = some text ∧
        on_maildirmanager_execute E md_mgr invocation payload user_data =
          { handled := true
            trace :=
              (execute_try_catch E (DBusContext.new user_data md_mgr invocation) payload).2 ++
                [Action.mu_server_complete_execute md_mgr invocation (some text)] ++
                (if (execute_try_catch E (DBusContext.new user_data md_mgr invocation)
                      payload).1.do_quit
                  then [Action.g_main_loop_quit] else [])
            dbus_context :=
              { (execute_try_catch E (DBusContext.new user_data md_mgr invocation) payload).1 with
                response_buffer := none }
            context := user_data } := by
  have h := (execute_try_catch_frame E (DBusContext.new user_data md_mgr invocation) payload).1
  obtain ⟨himpl, hinv, hsrv, hbuf⟩ := h
  have hsome := hbuf rfl
  obtain ⟨text, htext⟩ := Option.isSome_iff_exists.1 hsome
  refine ⟨text, htext, ?_⟩
  simp only [on_maildirmanager_execute, DBusContext.send_response, himpl, hinv, hsrv, htext]
  rfl

/-- The handler reports the call as handled and completes it exactly once,
with the text of the buffer after the `try`/`catch`. -/
theorem on_maildirmanager_execute_completes_once_aux (E : Externals) (md_mgr invocation : Nat)
    (payload : String) (user_data : Context) :
    (on_maildirmanager_execute E md_mgr invocation payload user_data).handled = true ∧
      ∃ text,
        (execute_try_catch E (DBusContext.new user_data md_mgr invocation)
            payload).1.response_buffer = some text ∧
          (on_maildirmanager_execute E md_mgr invocation payload user_data).trace.filter
              Action.is_complete_execute =
            [Action.mu_server_complete_execute md_mgr invocation (some text)] := by
  obtain ⟨text, htext, hun⟩ := on_maildirmanager_execute_unfold E md_mgr invocation payload user_data
  refine ⟨by rw [hun], text, htext, ?_⟩
  have hpre : (execute_try_catch E (DBusContext.new user_data md_mgr invocation) payload).2.filter
      Action.is_complete_execute = [] := by
    rw [List.filter_eq_nil_iff]
    intro a ha
    rcases (execute_try_catch_frame E _ payload).2 a ha with h | h
    · subst h
      simp [Action.is_complete_execute]
    · cases a <;> simp_all [Action.is_complete_execute, Action.is_emit_oobmessage]
  rw [hun]
  simp only [List.filter_append, hpre, List.nil_append]
  split <;> simp [Action.is_complete_execute]

/-- C5: for every payload the handler reports the call as handled, and its
trace holds exactly one `mu_server_complete_execute`, for this server and
invocation handle, carrying the text the response buffer holds after the
`try`/`catch`: whether parsing and the handler return or throw. -/
theorem on_maildirmanager_execute_completes_once (E : Externals) (md_mgr invocation : Nat)
    (payload : String) (user_data : Context) :
    (on_maildirmanager_execute E md_mgr invocation payload user_data).handled = true ∧
      ∃ text,
        (execute_try_catch E (DBusContext.new user_data md_mgr invocation)
            payload).1.response_buffer = some text ∧
          (on_maildirmanager_execute E md_mgr invocation payload user_data).trace.filter
              Action.is_complete_execute =
            [Action.mu_server_complete_execute md_mgr invocation (some text)] :=
  on_maildirmanager_execute_completes_once_aux E md_mgr invocation payload user_data

/-- C7: when `Sexp::parse` throws `er`, `invoke` is not entered, the only call
is the completion, and its payload is the buffer `print_error` produces for
the code and text of `er` on the fresh context: one error fragment and
nothing else. -/
theorem on_maildirmanager_execute_parse_error (E : Externals) (md_mgr invocation : Nat)
    (payload : String) (user_data : Context) (er : Error)
    (hp : E.parse payload = .error er) :
    (on_maildirmanager_execute E md_mgr invocation payload user_data).trace =
        [Action.mu_server_complete_execute md_mgr invocation
          ((DBusContext.print_error E (DBusContext.new user_data md_mgr invocation)
              er.code er.what).1.response_buffer)] ∧
      (DBusContext.print_error E (DBusContext.new user_data md_mgr invocation)
          er.code er.what).1.response_buffer =
        some ("(:error " ++ Nat.repr er.code ++ " :message " ++
          E.mu_str_escape_c_literal er.what true ++ ")") ∧
      Action.invoke ∉ (on_maildirmanager_execute E md_mgr invocation payload user_data).trace := by
  have htry := execute_try_parse_error E (DBusContext.new user_data md_mgr invocation) payload er hp
  have hcatch := execute_try_catch_some E (DBusContext.new user_data md_mgr invocation) payload er
    (by rw [htry])
  rw [htry] at hcatch
  have htrace : (on_maildirmanager_execute E md_mgr invocation payload user_data).trace =
      [Action.mu_server_complete_execute md_mgr invocation
        ((DBusContext.print_error E (DBusContext.new user_data md_mgr invocation)
            er.code er.what).1.response_buffer)] := by
    simp only [on_maildirmanager_execute, hcatch]
    rfl
  refine ⟨htrace, ?_, ?_⟩
  · simp [DBusContext.print_error, DBusContext.new, g_string_append, error_fragment]
  · rw [htrace]
    simp

/-- C7 on the empty payload, which the sample parser rejects. -/
theorem on_maildirmanager_execute_parse_error_witness :
    (on_maildirmanager_execute sample 1 2 "" { store := 1, query := 2, do_quit := false }).trace =
      [Action.mu_server_complete_execute 1 2 (some "(:error 3 :message \"parse error\")")] :=
  (on_maildirmanager_execute_parse_error sample 1 2 ""
    { store := 1, query := 2, do_quit := false } { code := 3, what := "parse error" } rfl).1

/-- C8: a freshly constructed `DBusContext` has `do_quit` false; the handler
calls `g_main_loop_quit` exactly when the per-request `do_quit` is true after
the `try`/`catch`; the trace is a part without any quit request, then the
completion of the call, then the quit request if there is one; and the
persistent context, its `do_quit` included, is as it was. -/
theorem on_maildirmanager_execute_quit (E : Externals) (md_mgr invocation : Nat)
    (payload : String) (user_data : Context) :
    (DBusContext.new user_data md_mgr invocation).do_quit = false ∧
      (Action.g_main_loop_quit ∈
          (on_maildirmanager_execute E md_mgr invocation payload user_data).trace ↔
        (execute_try_catch E (DBusContext.new user_data md_mgr invocation) payload).1.do_quit
          = true) ∧
      (on_maildirmanager_execute E md_mgr invocation payload user_data).dbus_context.do_quit =
        (execute_try_catch E (DBusContext.new user_data md_mgr invocation) payload).1.do_quit ∧
      (∃ before data,
        Action.g_main_loop_quit ∉ before ∧
          (on_maildirmanager_execute E md_mgr invocation payload user_data).trace =
            before ++ [Action.mu_server_complete_execute md_mgr invocation data] ++
              (if (execute_try_catch E (DBusContext.new user_data md_mgr invocation)
                    payload).1.do_quit
                then [Action.g_main_loop_quit] else [])) ∧
      (on_maildirmanager_execute E md_mgr invocation payload user_data).context = user_data ∧
      (on_maildirmanager_execute E md_mgr invocation payload user_data).context.do_quit =
        user_data.do_quit := by
  obtain ⟨text, htext, hun⟩ := on_maildirmanager_execute_unfold E md_mgr invocation payload user_data
  have hpre : Action.g_main_loop_quit ∉
      (execute_try_catch E (DBusContext.new user_data md_mgr invocation) payload).2 := by
    intro hmem
    rcases (execute_try_catch_frame E _ payload).2 _ hmem with h | h
    · cases h
    · simp [Action.is_emit_oobmessage] at h
  refine ⟨rfl, ?_, by rw [hun], ⟨_, some text, hpre, by rw [hun]⟩, by rw [hun], by rw [hun]⟩
  rw [hun]
  cases hq : (execute_try_catch E (DBusContext.new user_data md_mgr invocation) payload).1.do_quit
  · simpa using hpre
  · simp

/-- C10: when parsing returns, the handler run stops by throwing `er` and the
buffer then holds `P`, the completion payload is `P` followed by the one
fragment `(:error <code> :message <escaped text>)` for `er`; it is the only
completion in the trace, whose other calls are those of the handler run. -/
theorem on_maildirmanager_execute_handler_error (E : Externals) (md_mgr invocation : Nat)
    (payload : String) (user_data : Context) (sexp : E.Sexp) (ctx2 : DBusContext)
    (calls : List Action) (er : Error) (P : String)
    (hp : E.parse payload = .ok sexp)
    (hrun : (E.invoke sexp).run E (DBusContext.new user_data md_mgr invocation) =
      (ctx2, calls, some er))
    (hP : ctx2.response_buffer = some P) :
    (on_maildirmanager_execute E md_mgr invocation payload user_data).trace =
        Action.invoke :: calls ++
          [Action.mu_server_complete_execute md_mgr invocation
            (some (P ++ ("(:error " ++ Nat.repr er.code ++ " :message " ++
              E.mu_str_escape_c_literal er.what true ++ ")")))] ++
          (if ctx2.do_quit then [Action.g_main_loop_quit] else []) ∧
      (on_maildirmanager_execute E md_mgr invocation payload user_data).trace.filter
          Action.is_complete_execute =
        [Action.mu_server_complete_execute md_mgr invocation
          (some (P ++ ("(:error " ++ Nat.repr er.code ++ " :message " ++
            E.mu_str_escape_c_literal er.what true ++ ")")))] ∧
      (DBusContext.print_error E ctx2 er.code er.what).1.response_buffer =
        some (P ++ ("(:error " ++ Nat.repr er.code ++ " :message " ++
          E.mu_str_escape_c_literal er.what true ++ ")")) := by
  have htry := execute_try_parse_ok E (DBusContext.new user_data md_mgr invocation) payload sexp hp
  rw [hrun] at htry
  have hcatch := execute_try_catch_some E (DBusContext.new user_data md_mgr invocation) payload er
    (by rw [htry])
  rw [htry] at hcatch
  have hfr := (Prog.run_frame E (E.invoke sexp) (DBusContext.new user_data md_mgr invocation)).1
  rw [hrun] at hfr
  obtain ⟨_, hinv, hsrv, _⟩ := hfr
  have hinv2 : ctx2.invocation = invocation := hinv
  have hsrv2 : ctx2.response_server = md_mgr := hsrv
  have herr : (DBusContext.print_error E ctx2 er.code er.what).1.response_buffer =
      some (P ++ ("(:error " ++ Nat.repr er.code ++ " :message " ++
        E.mu_str_escape_c_literal er.what true ++ ")")) := by
    simp [DBusContext.print_error, hP, g_string_append, error_fragment]
  have htrace : (on_maildirmanager_execute E md_mgr invocation payload user_data).trace =
      Action.invoke :: calls ++
        [Action.mu_server_complete_execute md_mgr invocation
          (some (P ++ ("(:error " ++ Nat.repr er.code ++ " :message " ++
            E.mu_str_escape_c_literal er.what true ++ ")")))] ++
        (if ctx2.do_quit then [Action.g_main_loop_quit] else []) := by
    simp only [on_maildirmanager_execute, hcatch, DBusContext.send_response, herr]
    simp [DBusContext.print_error, hinv2, hsrv2]
  refine ⟨htrace, ?_, herr⟩
  obtain ⟨_, text, htext, hone⟩ :=
    on_maildirmanager_execute_completes_once_aux E md_mgr invocation payload user_data
  rw [hone]
  rw [hcatch] at htext
  rw [herr] at htext
  rw [← htext]

/-- C10 on the sample request `(find)`: one fragment is staged, then the
handler throws. -/
theorem on_maildirmanager_execute_handler_error_witness :
    (on_maildirmanager_execute sample 1 2 "(find)"
        { store := 1, query := 2, do_quit := false }).trace =
      [Action.invoke,
       Action.mu_server_complete_execute 1 2
         (some "(:docid 1)(:error 4 :message \"no matches\")")] :=
  (on_maildirmanager_execute_handler_error sample 1 2 "(find)"
    { store := 1, query := 2, do_quit := false } "(find)"
    { DBusContext.new { store := 1, query := 2, do_quit := false } 1 2 with
      response_buffer := some "(:docid 1)" }
    [] { code := 4, what := "no matches" } "(:docid 1)" rfl rfl rfl).1

end Mu
